import Mathlib

/-!
# Verification of the playbook lifecycle governance core

A shallow embedding of the version-control and approval-gate engines of the
better-soar-playbook-agent repository (`src/core/VersionControlEngine.js` and
`src/core/ApprovalGateEngine.js`), together with proofs of the spec's claims
about them.

Playbook artifacts are opaque JSON documents, modelled by `JValue`.
Machine `Map`s are modelled by association lists with JavaScript `Map`
insertion semantics (replace in place, else append).  Timestamps are
milliseconds since the epoch (`Nat`).  Fresh identifiers (`uuid`) and the
current time are nondeterministic in the source and are therefore passed to
each operation as explicit arguments.
-/

namespace Soar

/-- A JSON document, as produced by the upstream playbook generator and stored
by the version-control engine.  Numbers are modelled as integers (every field
the governance core reads is an integer or string; floating point does not
occur in the governed fields). -/
inductive JValue where
  | null : JValue
  | bool (b : Bool) : JValue
  | num (n : Int) : JValue
  | str (s : String) : JValue
  | arr (elems : List JValue) : JValue
  | obj (fields : List (String × JValue)) : JValue
deriving Repr

mutual

/-- Structural equality of JSON values (the deriving handler does not support
this nested inductive, so the test is spelled out). -/
def JValue.beq : JValue → JValue → Bool
  | .null, .null => true
  | .bool a, .bool b => a == b
  | .num a, .num b => a == b
  | .str a, .str b => a == b
  | .arr a, .arr b => JValue.beqList a b
  | .obj a, .obj b => JValue.beqFields a b
  | _, _ => false

def JValue.beqList : List JValue → List JValue → Bool
  | [], [] => true
  | x :: xs, y :: ys => JValue.beq x y && JValue.beqList xs ys
  | _, _ => false

def JValue.beqFields : List (String × JValue) → List (String × JValue) → Bool
  | [], [] => true
  | (k₁, v₁) :: xs, (k₂, v₂) :: ys => k₁ == k₂ && JValue.beq v₁ v₂ && JValue.beqFields xs ys
  | _, _ => false

end

mutual

theorem JValue.beq_iff_eq : ∀ a b : JValue, JValue.beq a b = true ↔ a = b
  | .null, .null => by simp [JValue.beq]
  | .bool _, .bool _ => by simp [JValue.beq]
  | .num _, .num _ => by simp [JValue.beq]
  | .str _, .str _ => by simp [JValue.beq]
  | .arr x, .arr y => by simp [JValue.beq, JValue.beqList_iff_eq x y]
  | .obj x, .obj y => by simp [JValue.beq, JValue.beqFields_iff_eq x y]
  | .null, .bool _ | .null, .num _ | .null, .str _ | .null, .arr _ | .null, .obj _
  | .bool _, .null | .bool _, .num _ | .bool _, .str _ | .bool _, .arr _ | .bool _, .obj _
  | .num _, .null | .num _, .bool _ | .num _, .str _ | .num _, .arr _ | .num _, .obj _
  | .str _, .null | .str _, .bool _ | .str _, .num _ | .str _, .arr _ | .str _, .obj _
  | .arr _, .null | .arr _, .bool _ | .arr _, .num _ | .arr _, .str _ | .arr _, .obj _
  | .obj _, .null | .obj _, .bool _ | .obj _, .num _ | .obj _, .str _ | .obj _, .arr _ =>
      by simp [JValue.beq]

theorem JValue.beqList_iff_eq : ∀ a b : List JValue, JValue.beqList a b = true ↔ a = b
  | [], [] => by simp [JValue.beqList]
  | x :: xs, y :: ys => by
      simp [JValue.beqList, JValue.beq_iff_eq x y, JValue.beqList_iff_eq xs ys]
  | [], _ :: _ => by simp [JValue.beqList]
  | _ :: _, [] => by simp [JValue.beqList]

theorem JValue.beqFields_iff_eq :
    ∀ a b : List (String × JValue), JValue.beqFields a b = true ↔ a = b
  | [], [] => by simp [JValue.beqFields]
  | (k₁, v₁) :: xs, (k₂, v₂) :: ys => by
      simp [JValue.beqFields, JValue.beq_iff_eq v₁ v₂, JValue.beqFields_iff_eq xs ys,
        and_assoc]
  | [], _ :: _ => by simp [JValue.beqFields]
  | _ :: _, [] => by simp [JValue.beqFields]

end

instance : DecidableEq JValue := fun a b =>
  decidable_of_iff (JValue.beq a b = true) (JValue.beq_iff_eq a b)

/-- Association-list lookup, first binding wins (JavaScript `Map.get`,
and also property lookup on object literals, which have unique keys). -/
def lookupKey {α : Type} : List (String × α) → String → Option α
  | [], _ => none
  | (k, v) :: rest, key => if k = key then some v else lookupKey rest key

/-- JavaScript `Map.set`: replace an existing binding in place, otherwise
append at the end (insertion order is preserved). -/
def mapSet {α : Type} : List (String × α) → String → α → List (String × α)
  | [], key, v => [(key, v)]
  | (k, w) :: rest, key, v =>
      if k = key then (key, v) :: rest else (k, w) :: mapSet rest key v

/-- JavaScript `Map.delete`.  A `Map` holds each key at most once, and every
state built by the engines keeps its association-list keys unique, so deleting
every binding of the key coincides with deleting the one binding. -/
def mapDelete {α : Type} : List (String × α) → String → List (String × α)
  | [], _ => []
  | (k, w) :: rest, key =>
      if k = key then mapDelete rest key else (k, w) :: mapDelete rest key

theorem lookupKey_mapSet_self {α : Type} (m : List (String × α)) (k : String) (v : α) :
    lookupKey (mapSet m k v) k = some v := by
  induction m with
  | nil => simp [mapSet, lookupKey]
  | cons hd tl ih =>
      obtain ⟨k', v'⟩ := hd
      by_cases h : k' = k <;> simp [mapSet, lookupKey, h, ih]

theorem lookupKey_mapSet_ne {α : Type} (m : List (String × α)) (k k' : String) (v : α)
    (h : k ≠ k') : lookupKey (mapSet m k v) k' = lookupKey m k' := by
  induction m with
  | nil => simp [mapSet, lookupKey, h]
  | cons hd tl ih =>
      obtain ⟨k₀, v₀⟩ := hd
      by_cases h₀ : k₀ = k
      · subst h₀
        simp [mapSet, lookupKey, h]
      · simp [mapSet, lookupKey, h₀]
        by_cases h₁ : k₀ = k' <;> simp [h₁, ih]

theorem lookupKey_mapDelete_self {α : Type} (m : List (String × α)) (k : String) :
    lookupKey (mapDelete m k) k = none := by
  induction m with
  | nil => simp [mapDelete, lookupKey]
  | cons hd tl ih =>
      obtain ⟨k₀, v₀⟩ := hd
      by_cases h : k₀ = k <;> simp [mapDelete, lookupKey, h, ih]

/-- A key distinct from the deleted one keeps its binding. -/
theorem lookupKey_mapDelete_ne {α : Type} (m : List (String × α)) (k k' : String)
    (h : k ≠ k') : lookupKey (mapDelete m k) k' = lookupKey m k' := by
  induction m with
  | nil => simp [mapDelete]
  | cons hd tl ih =>
      obtain ⟨k₀, v₀⟩ := hd
      by_cases h₀ : k₀ = k
      · have h₂ : k₀ ≠ k' := h₀ ▸ h
        simp [mapDelete, lookupKey, h₀, h₂, h, ih]
      · by_cases h₁ : k₀ = k' <;>
          simp [mapDelete, lookupKey, h₀, h₁, ih, Ne.symm h]

/-! ## Decimal rendering and parsing

`Number.prototype.toString` and `parseInt`, as used by
`getNextVersionNumber` (VersionControlEngine.js:75-93). -/

/-- The decimal digit character for `d < 10`. -/
def natDigitChar (d : Nat) : Char :=
  if d = 0 then '0' else if d = 1 then '1' else if d = 2 then '2'
  else if d = 3 then '3' else if d = 4 then '4' else if d = 5 then '5'
  else if d = 6 then '6' else if d = 7 then '7' else if d = 8 then '8' else '9'

/-- Decimal digits, fuel-based so that the definition is structurally
recursive (and therefore evaluates inside the kernel); the fuel `n + 1`
always suffices. -/
def natDigitsAux : Nat → Nat → List Char
  | 0, _ => []
  | fuel + 1, n =>
      if n < 10 then [natDigitChar n]
      else natDigitsAux fuel (n / 10) ++ [natDigitChar (n % 10)]

/-- Decimal digits of a natural number, most significant first. -/
def natDigits (n : Nat) : List Char := natDigitsAux (n + 1) n

theorem natDigitsAux_fuel (n : Nat) :
    ∀ f₁ f₂, n < f₁ → n < f₂ → natDigitsAux f₁ n = natDigitsAux f₂ n := by
  induction n using Nat.strong_induction_on with
  | _ n ih =>
      intro f₁ f₂ h₁ h₂
      match f₁, f₂ with
      | g₁ + 1, g₂ + 1 =>
          simp only [natDigitsAux]
          by_cases h : n < 10
          · simp [h]
          · simp only [h, if_false]
            have hlt : n / 10 < n := Nat.div_lt_self (by omega) (by omega)
            rw [ih (n / 10) hlt g₁ g₂ (by omega) (by omega)]

/-- The recursion equation of `natDigits`. -/
theorem natDigits_eq (n : Nat) :
    natDigits n
      = if n < 10 then [natDigitChar n]
        else natDigits (n / 10) ++ [natDigitChar (n % 10)] := by
  by_cases h : n < 10
  · simp [natDigits, natDigitsAux, h]
  · have hlt : n / 10 < n := Nat.div_lt_self (by omega) (by omega)
    have hstep : natDigits n = natDigitsAux n (n / 10) ++ [natDigitChar (n % 10)] := by
      simp [natDigits, natDigitsAux, h]
    rw [hstep, if_neg h, natDigitsAux_fuel (n / 10) n (n / 10 + 1) (by omega) (by omega)]
    rfl

/-- Model of `Number.prototype.toString` for a natural number. -/
def natToString (n : Nat) : String := String.mk (natDigits n)

/-- Model of `Number.prototype.toString` for an integer. -/
def intToString (n : Int) : String :=
  if n < 0 then "-" ++ natToString (-n).toNat else natToString n.toNat

def isDigitChar (c : Char) : Bool := '0' ≤ c && c ≤ '9'

def digitVal (c : Char) : Nat := c.toNat - 48

/-- Model of `parseInt` on the decimal digit strings the engine produces: reads the
leading run of digits, `NaN` (here `none`) when there is none.  (`parseInt`'s
sign, whitespace and radix handling never arises on version-number parts.) -/
def jsParseInt (s : String) : Option Nat :=
  let ds := s.data.takeWhile isDigitChar
  if ds.isEmpty then none
  else some (ds.foldl (fun a c => a * 10 + digitVal c) 0)

theorem natDigitChar_isDigit (d : Nat) (h : d < 10) : isDigitChar (natDigitChar d) = true := by
  interval_cases d <;> decide

theorem digitVal_natDigitChar (d : Nat) (h : d < 10) : digitVal (natDigitChar d) = d := by
  interval_cases d <;> decide

theorem natDigits_all_digits (n : Nat) : ∀ c ∈ natDigits n, isDigitChar c = true := by
  induction n using Nat.strong_induction_on with
  | _ n ih =>
      intro c hc
      rw [natDigits_eq] at hc
      by_cases h : n < 10
      · simp only [if_pos h, List.mem_singleton] at hc
        subst hc
        exact natDigitChar_isDigit n h
      · simp only [if_neg h, List.mem_append, List.mem_singleton] at hc
        rcases hc with hc | hc
        · exact ih (n / 10) (Nat.div_lt_self (by omega) (by omega)) c hc
        · subst hc
          exact natDigitChar_isDigit _ (Nat.mod_lt _ (by omega))

theorem foldl_natDigits (n : Nat) :
    ∀ a, (natDigits n).foldl (fun a c => a * 10 + digitVal c) a
      = a * 10 ^ (natDigits n).length + n := by
  induction n using Nat.strong_induction_on with
  | _ n ih =>
      intro a
      rw [natDigits_eq]
      by_cases h : n < 10
      · simp [if_pos h, digitVal_natDigitChar n h]
      · have hlt : n / 10 < n := Nat.div_lt_self (by omega) (by omega)
        simp only [if_neg h, List.foldl_append, List.foldl_cons, List.foldl_nil,
          List.length_append, List.length_singleton]
        rw [ih (n / 10) hlt a]
        rw [digitVal_natDigitChar _ (Nat.mod_lt _ (by omega))]
        have hdm : n / 10 * 10 + n % 10 = n := by omega
        rw [pow_succ]
        calc (a * 10 ^ (natDigits (n / 10)).length + n / 10) * 10 + n % 10
            = a * (10 ^ (natDigits (n / 10)).length * 10) + (n / 10 * 10 + n % 10) := by ring
          _ = a * (10 ^ (natDigits (n / 10)).length * 10) + n := by rw [hdm]

/-- Round trip: the engine's rendering of a number parses back to it. -/
theorem jsParseInt_natToString (n : Nat) : jsParseInt (natToString n) = some n := by
  unfold jsParseInt natToString
  have hall := natDigits_all_digits n
  have htake : (natDigits n).takeWhile isDigitChar = natDigits n :=
    List.takeWhile_eq_self_iff.mpr hall
  have hne : natDigits n ≠ [] := by
    rw [natDigits_eq]
    by_cases h : n < 10 <;> simp [h]
  simp only [String.data]
  rw [htake]
  simp only [List.isEmpty_iff, hne, if_false]
  rw [foldl_natDigits n 0]
  simp

/-! ## JSON serialization

`JSON.stringify`.  `serializeJson` is the plain form (no replacer);
`stringifyWith` is `JSON.stringify(value, keys)` with an array replacer,
which at **every** nesting level keeps only the properties named in `keys`,
emitted in the order of `keys` (ECMA-262 SerializeJSONObject with a
PropertyList).  String escaping is modelled for the quote and backslash; the
governed documents contain no control characters. -/

def jsonEscapeChar (c : Char) : String :=
  if c = '"' then "\\\"" else if c = '\\' then "\\\\" else String.mk [c]

def jsonQuote (s : String) : String :=
  "\"" ++ String.join (s.data.map jsonEscapeChar) ++ "\""

mutual

/-- Model of `JSON.stringify(v)` with no replacer: object properties in insertion
order. -/
def serializeJson : JValue → String
  | .null => "null"
  | .bool true => "true"
  | .bool false => "false"
  | .num n => intToString n
  | .str s => jsonQuote s
  | .arr elems => "[" ++ String.intercalate "," (serializeJsonList elems) ++ "]"
  | .obj fields => "\x7b" ++ String.intercalate "," (serializeJsonFields fields) ++ "\x7d"

def serializeJsonList : List JValue → List String
  | [] => []
  | v :: rest => serializeJson v :: serializeJsonList rest

def serializeJsonFields : List (String × JValue) → List String
  | [] => []
  | (k, v) :: rest => (jsonQuote k ++ ":" ++ serializeJson v) :: serializeJsonFields rest

end

mutual

/-- Model of `JSON.stringify(v, keys)` with an array replacer: each object is emitted
with exactly the properties named in `keys`, in the order of `keys`. -/
def stringifyWith (keys : List String) : JValue → String
  | .null => "null"
  | .bool true => "true"
  | .bool false => "false"
  | .num n => intToString n
  | .str s => jsonQuote s
  | .arr elems => "[" ++ String.intercalate "," (stringifyWithList keys elems) ++ "]"
  | .obj fields =>
      "\x7b" ++ String.intercalate ","
        (keys.filterMap (fun k =>
          (lookupKey (stringifyWithFields keys fields) k).map
            (fun sv => jsonQuote k ++ ":" ++ sv))) ++ "\x7d"

def stringifyWithList (keys : List String) : List JValue → List String
  | [] => []
  | v :: rest => stringifyWith keys v :: stringifyWithList keys rest

def stringifyWithFields (keys : List String) :
    List (String × JValue) → List (String × String)
  | [] => []
  | (k, v) :: rest => (k, stringifyWith keys v) :: stringifyWithFields keys rest

end

mutual

/-- The view of a document that an array replacer exposes: every object
restricted, at every level, to the properties named in `keys`, reordered to
the order of `keys`. -/
def filterView (keys : List String) : JValue → JValue
  | .null => .null
  | .bool b => .bool b
  | .num n => .num n
  | .str s => .str s
  | .arr elems => .arr (filterViewList keys elems)
  | .obj fields =>
      .obj (keys.filterMap (fun k =>
        (lookupKey (filterViewFields keys fields) k).map (fun v => (k, v))))

def filterViewList (keys : List String) : List JValue → List JValue
  | [] => []
  | v :: rest => filterView keys v :: filterViewList keys rest

def filterViewFields (keys : List String) :
    List (String × JValue) → List (String × JValue)
  | [] => []
  | (k, v) :: rest => (k, filterView keys v) :: filterViewFields keys rest

end

theorem serializeJsonList_eq_map (l : List JValue) :
    serializeJsonList l = l.map serializeJson := by
  induction l with
  | nil => rfl
  | cons v rest ih => simp [serializeJsonList, ih]

theorem serializeJsonFields_eq_map (l : List (String × JValue)) :
    serializeJsonFields l = l.map (fun kv => jsonQuote kv.1 ++ ":" ++ serializeJson kv.2) := by
  induction l with
  | nil => rfl
  | cons kv rest ih =>
      obtain ⟨k, v⟩ := kv
      simp [serializeJsonFields, ih]

theorem lookupKey_map_snd {α β : Type} (f : α → β) (l : List (String × α)) (k : String) :
    lookupKey (l.map (fun kv => (kv.1, f kv.2))) k = (lookupKey l k).map f := by
  induction l with
  | nil => rfl
  | cons kv rest ih =>
      obtain ⟨k₀, v₀⟩ := kv
      by_cases h : k₀ = k <;> simp [lookupKey, h, ih]

mutual

/-- Stringifying with an array replacer is plain stringification of the
replacer-filtered view of the document. -/
theorem stringifyWith_eq_filterView :
    ∀ (keys : List String) (v : JValue),
      stringifyWith keys v = serializeJson (filterView keys v)
  | _, .null => rfl
  | _, .bool true => rfl
  | _, .bool false => rfl
  | _, .num _ => rfl
  | _, .str _ => rfl
  | keys, .arr elems => by
      simp only [stringifyWith, filterView, serializeJson]
      rw [stringifyWithList_eq_filterView keys elems]
  | keys, .obj fields => by
      simp only [stringifyWith, filterView, serializeJson]
      rw [stringifyWithFields_eq_filterView keys fields]
      rw [serializeJsonFields_eq_map]
      rw [List.map_filterMap]
      simp only [lookupKey_map_snd, Option.map_map]
      have hfun : ∀ x : String,
          Option.map ((fun sv => jsonQuote x ++ ":" ++ sv) ∘ serializeJson)
              (lookupKey (filterViewFields keys fields) x)
            = Option.map
                ((fun kv : String × JValue => jsonQuote kv.1 ++ ":" ++ serializeJson kv.2)
                  ∘ fun v => (x, v))
                (lookupKey (filterViewFields keys fields) x) := by
        intro x
        cases lookupKey (filterViewFields keys fields) x <;> rfl
      rw [funext hfun]

theorem stringifyWithList_eq_filterView :
    ∀ (keys : List String) (l : List JValue),
      stringifyWithList keys l = serializeJsonList (filterViewList keys l)
  | _, [] => rfl
  | keys, v :: rest => by
      simp only [stringifyWithList, filterViewList, serializeJsonList]
      rw [stringifyWith_eq_filterView keys v, stringifyWithList_eq_filterView keys rest]

theorem stringifyWithFields_eq_filterView :
    ∀ (keys : List String) (l : List (String × JValue)),
      stringifyWithFields keys l
        = (filterViewFields keys l).map (fun kv => (kv.1, serializeJson kv.2))
  | _, [] => rfl
  | keys, (k, v) :: rest => by
      simp only [stringifyWithFields, filterViewFields, List.map_cons]
      rw [stringifyWith_eq_filterView keys v, stringifyWithFields_eq_filterView keys rest]

end

/-! ## `calculateChecksum` -/

/-- Model of `Object.keys`: the top-level property names of a document, in insertion
order (the stored playbooks are always objects). -/
def JValue.topKeys : JValue → List String
  | .obj fields => fields.map Prod.fst
  | _ => []

def insertSorted (s : String) : List String → List String
  | [] => [s]
  | t :: rest => if s < t then s :: t :: rest else t :: insertSorted s rest

/-- Model of `Array.prototype.sort()` on the key names: ascending lexicographic
comparison of the strings. -/
def sortKeys : List String → List String
  | [] => []
  | s :: rest => insertSorted s (sortKeys rest)

/-- Model of `calculateChecksum` (VersionControlEngine.js:104-107):
`sha256(JSON.stringify(playbook, Object.keys(playbook).sort()))`.
The sha256 digest is an external crypto primitive; it is modelled as an
abstract function `hash` of the serialized string. -/
def calculateChecksum (hash : String → String) (playbook : JValue) : String :=
  hash (stringifyWith (sortKeys playbook.topKeys) playbook)

/-! ## Version-number strings

`getNextVersionNumber` manipulates `"major.minor.patch"` strings with
`String.prototype.split('.')`, `parseInt` and `Array.prototype.join('.')`.
The split and join are modelled on character lists. -/

/-- Model of `String.prototype.split(c)` on the character list: `""` splits to
`[""]`, like in JavaScript. -/
def splitOnChar (c : Char) : List Char → List (List Char)
  | [] => [[]]
  | x :: xs =>
      if x = c then [] :: splitOnChar c xs
      else
        match splitOnChar c xs with
        | [] => [[x]]
        | p :: ps => (x :: p) :: ps

/-- Model of `Array.prototype.join(c)` on character lists. -/
def joinChar (c : Char) : List (List Char) → List Char
  | [] => []
  | [p] => p
  | p :: ps => p ++ c :: joinChar c ps

theorem splitOnChar_ne_nil (c : Char) (l : List Char) : splitOnChar c l ≠ [] := by
  induction l with
  | nil => simp [splitOnChar]
  | cons x xs ih =>
      by_cases h : x = c
      · simp [splitOnChar, h]
      · simp only [splitOnChar, if_neg h]
        cases hs : splitOnChar c xs <;> simp

theorem splitOnChar_not_mem (c : Char) (l : List Char) (h : c ∉ l) :
    splitOnChar c l = [l] := by
  induction l with
  | nil => rfl
  | cons x xs ih =>
      simp only [List.mem_cons, not_or] at h
      have hx : x ≠ c := fun hxc => h.1 hxc.symm
      simp [splitOnChar, hx, ih h.2]

theorem splitOnChar_cons_ne (c x : Char) (xs : List Char) (hx : x ≠ c) :
    splitOnChar c (x :: xs)
      = match splitOnChar c xs with
        | [] => [[x]]
        | p :: ps => (x :: p) :: ps := by
  simp [splitOnChar, hx]

theorem splitOnChar_append (c : Char) (p rest : List Char) (h : c ∉ p) :
    splitOnChar c (p ++ c :: rest) = p :: splitOnChar c rest := by
  induction p with
  | nil => simp [splitOnChar]
  | cons x xs ih =>
      simp only [List.mem_cons, not_or] at h
      have hx : x ≠ c := fun hxc => h.1 hxc.symm
      rw [List.cons_append, splitOnChar_cons_ne c x _ hx, ih h.2]

/-- Splitting undoes joining when no part contains the separator. -/
theorem splitOnChar_joinChar (c : Char) (parts : List (List Char))
    (hne : parts ≠ []) (h : ∀ p ∈ parts, c ∉ p) :
    splitOnChar c (joinChar c parts) = parts := by
  induction parts with
  | nil => exact absurd rfl hne
  | cons p ps ih =>
      cases ps with
      | nil =>
          simp only [joinChar]
          exact splitOnChar_not_mem c p (h p (List.mem_cons_self p []))
      | cons q qs =>
          have hjoin : joinChar c (p :: q :: qs) = p ++ c :: joinChar c (q :: qs) := rfl
          rw [hjoin, splitOnChar_append c p _ (h p (List.mem_cons_self _ _))]
          rw [ih (by simp) (fun r hr => h r (List.mem_cons_of_mem _ hr))]

/-- Model of `version_number.split('.')`. -/
def splitDots (s : String) : List String :=
  (splitOnChar '.' s.data).map String.mk

/-- Model of `parts.join('.')`. -/
def joinDots (parts : List String) : String :=
  String.mk (joinChar '.' (parts.map String.data))

theorem splitDots_joinDots (parts : List String) (hne : parts ≠ [])
    (h : ∀ p ∈ parts, '.' ∉ p.data) : splitDots (joinDots parts) = parts := by
  unfold splitDots joinDots
  simp only [String.data]
  rw [splitOnChar_joinChar '.' (parts.map String.data)
    (by simpa using hne) (by simpa using h)]
  have hid : ∀ l : List String, List.map String.mk (List.map String.data l) = l := by
    intro l
    induction l with
    | nil => rfl
    | cons p ps ih => simp only [List.map_cons, ih]
  exact hid parts

/-- JavaScript `parts[2] = newPatch` on the split result: index 2 is written,
extending the array (with empty holes, which `join` renders as empty strings)
when it is shorter.  `getNextVersionNumber` only ever runs this on the
three-part numbers the engine itself produces. -/
def setPatchPart (parts : List String) (p : String) : List String :=
  match parts with
  | a :: b :: _ :: rest => a :: b :: p :: rest
  | [a, b] => [a, b, p]
  | [a] => [a, "", p]
  | [] => ["", "", p]

/-- Model of `getNextVersionNumber`'s increment step (VersionControlEngine.js:88-92):
`parts[2] = (parseInt(parts[2]) + 1).toString()`, then `parts.join('.')`.
A missing or non-numeric patch part renders as `"NaN"`, as in JavaScript. -/
def incPatch (num : String) : String :=
  let parts := splitDots num
  let newPatch :=
    match parts.get? 2 with
    | some p =>
        match jsParseInt p with
        | some n => natToString (n + 1)
        | none => "NaN"
    | none => "NaN"
  joinDots (setPatchPart parts newPatch)

/-- The patch component of a version-number string: the third
dot-separated part, parsed as a number. -/
def patchOf (num : String) : Option Nat :=
  match (splitDots num).get? 2 with
  | some p => jsParseInt p
  | none => none

theorem natToString_no_dot (n : Nat) : '.' ∉ (natToString n).data := by
  intro hmem
  have := natDigits_all_digits n '.' (by simpa [natToString] using hmem)
  simp [isDigitChar] at this

theorem splitDots_parts_no_dot (s : String) : ∀ p ∈ splitDots s, '.' ∉ p.data := by
  unfold splitDots
  intro p hp
  simp only [List.mem_map] at hp
  obtain ⟨l, hl, rfl⟩ := hp
  -- parts produced by splitOnChar never contain the separator
  suffices hgen : ∀ (xs : List Char) (l : List Char), l ∈ splitOnChar '.' xs → '.' ∉ l by
    simpa using hgen s.data l hl
  intro xs
  induction xs with
  | nil =>
      intro l hl
      simp only [splitOnChar, List.mem_singleton] at hl
      subst hl
      simp
  | cons x rest ih =>
      intro l hl
      by_cases hx : x = '.'
      · simp only [splitOnChar, if_pos hx, List.mem_cons] at hl
        rcases hl with rfl | hl
        · simp
        · exact ih l hl
      · simp only [splitOnChar, if_neg hx] at hl
        cases hs : splitOnChar '.' rest with
        | nil => exact absurd hs (splitOnChar_ne_nil '.' rest)
        | cons p ps =>
            rw [hs] at hl
            simp only [List.mem_cons] at hl
            rcases hl with rfl | hl
            · intro hmem
              rcases List.mem_cons.mp hmem with h | h
              · exact hx h.symm
              · exact ih p (hs ▸ List.mem_cons_self p ps) h
            · exact ih l (hs ▸ List.mem_cons_of_mem p hl)

/-- After the increment the patch part is exactly the incremented number:
`patchOf (incPatch num) = some (n + 1)` whenever `patchOf num = some n`. -/
theorem patchOf_incPatch (num : String) (n : Nat) (h : patchOf num = some n) :
    patchOf (incPatch num) = some (n + 1) := by
  unfold incPatch
  cases hget : (splitDots num).get? 2 with
  | none =>
      unfold patchOf at h
      rw [hget] at h
      exact absurd h (by simp)
  | some p =>
      have hp : jsParseInt p = some n := by
        unfold patchOf at h
        rw [hget] at h
        exact h
      simp only [hget]
      rw [hp]
      show patchOf (joinDots (setPatchPart (splitDots num) (natToString (n + 1)))) = _
      unfold patchOf
      have hsplit : splitDots (joinDots (setPatchPart (splitDots num) (natToString (n + 1))))
          = setPatchPart (splitDots num) (natToString (n + 1)) := by
        apply splitDots_joinDots
        · unfold setPatchPart
          cases hp : splitDots num with
          | nil => simp
          | cons a rest =>
              cases rest with
              | nil => simp
              | cons b rest' => cases rest' <;> simp
        · intro q hq
          unfold setPatchPart at hq
          have hnd := natToString_no_dot (n + 1)
          have hparts := splitDots_parts_no_dot num
          cases hp : splitDots num with
          | nil =>
              rw [hp] at hq
              simp only [List.mem_cons, List.not_mem_nil, or_false] at hq
              rcases hq with rfl | rfl | rfl
              · simp
              · simp
              · exact hnd
          | cons a rest =>
              rw [hp] at hq
              cases rest with
              | nil =>
                  simp only [List.mem_cons, List.not_mem_nil, or_false] at hq
                  rcases hq with rfl | rfl | rfl
                  · exact hparts q (hp ▸ List.mem_cons_self _ _)
                  · simp
                  · exact hnd
              | cons b rest' =>
                  cases rest' with
                  | nil =>
                      simp only [List.mem_cons, List.not_mem_nil, or_false] at hq
                      rcases hq with rfl | rfl | rfl
                      · exact hparts q (hp ▸ List.mem_cons_self _ _)
                      · exact hparts q (hp ▸ List.mem_cons_of_mem _ (List.mem_cons_self _ _))
                      · exact hnd
                  | cons cc rest'' =>
                      simp only [List.mem_cons] at hq
                      rcases hq with rfl | rfl | rfl | hq
                      · exact hparts q (hp ▸ List.mem_cons_self _ _)
                      · exact hparts q (hp ▸ List.mem_cons_of_mem _ (List.mem_cons_self _ _))
                      · exact hnd
                      · exact hparts q (hp ▸ List.mem_cons_of_mem _
                          (List.mem_cons_of_mem _ (List.mem_cons_of_mem _ hq)))
      rw [hsplit]
      have hidx : (setPatchPart (splitDots num) (natToString (n + 1))).get? 2
          = some (natToString (n + 1)) := by
        unfold setPatchPart
        cases hp : splitDots num with
        | nil => rfl
        | cons a rest =>
            cases rest with
            | nil => rfl
            | cons b rest' => cases rest' <;> rfl
      rw [hidx]
      exact jsParseInt_natToString (n + 1)

/-! ## JavaScript value coercions -/

mutual

/-- JavaScript string coercion, as applied by a template literal
(`` `${playbook.playbook_id}:${branch}` ``): arrays join their elements with
commas (`null` elements render empty), objects render as
`"[object Object]"`. -/
def jsDisplay : JValue → String
  | .null => "null"
  | .bool true => "true"
  | .bool false => "false"
  | .num n => intToString n
  | .str s => s
  | .arr elems => String.intercalate "," (jsDisplayElems elems)
  | .obj _ => "[object Object]"

def jsDisplayElems : List JValue → List String
  | [] => []
  | .null :: rest => "" :: jsDisplayElems rest
  | v :: rest => jsDisplay v :: jsDisplayElems rest

end

/-- String coercion of a possibly-undefined value (`undefined` renders as
`"undefined"` in a template literal). -/
def jsDisplayOpt : Option JValue → String
  | none => "undefined"
  | some v => jsDisplay v

/-- Property read `v[k]`; on non-objects it yields `undefined` (`none`),
as in JavaScript. -/
def getField (v : JValue) (k : String) : Option JValue :=
  match v with
  | .obj fields => lookupKey fields k
  | _ => none

/-- Property read on a possibly-undefined value: reading a property of
`undefined` or `null` throws a `TypeError`. -/
def jsGet (o : Option JValue) (k : String) : Except String (Option JValue) :=
  match o with
  | none => .error ("TypeError: Cannot read properties of undefined (reading '" ++ k ++ "')")
  | some .null => .error ("TypeError: Cannot read properties of null (reading '" ++ k ++ "')")
  | some v => .ok (getField v k)

/-- JavaScript truthiness. -/
def jsTruthy : JValue → Bool
  | .null => false
  | .bool b => b
  | .num n => n ≠ 0
  | .str s => s ≠ ""
  | .arr _ => true
  | .obj _ => true

/-! ## VersionControlEngine (src/core/VersionControlEngine.js)

The engine's in-memory registries (`versions`, `branches`, `auditTrail`) form
the state.  `uuid` generation and `new Date()` are nondeterministic inputs
and are passed in as the `newId` / `now` arguments of each operation.
`JSON.parse(JSON.stringify(playbook))` — the deep clone taken for
`playbook_snapshot` — is the identity on `JValue` (the model has no
`undefined` members, functions or cycles, which are the only values the JSON
round trip does not preserve). -/

/-- The `metadata` block denormalized into every Version
(VersionControlEngine.js:39-46). -/
structure VMetadata where
  size : Nat
  platform : Option JValue
  category : Option JValue
  severity : Option JValue
  mitre_techniques : Option JValue
  tags : JValue
deriving DecidableEq, Repr

/-- A stored Version record (VersionControlEngine.js:27-47).  `playbook_id`
and `playbook_name` are copied from the playbook document and may be absent
(`undefined`). -/
structure Version where
  version_id : String
  playbook_id : Option JValue
  playbook_name : Option JValue
  version_number : String
  branch : String
  checksum : String
  created_at : Nat
  created_by : String
  change_description : String
  parent_version : Option String
  playbook_snapshot : JValue
  metadata : VMetadata
  merge_source : Option String := none
  rollback_from : Option String := none
deriving DecidableEq, Repr

/-- An audit-trail entry (the generated `audit_id` and the per-action extra
fields are not read by any operation and are not modelled). -/
structure AuditEntry where
  action : String
  version_id : Option String
  playbook_id : Option JValue
  timestamp : Nat
  description : String
deriving DecidableEq, Repr

/-- The engine's in-memory registries.  (`tags` is omitted: no claim touches
`createTag`, and tags never influence the modelled operations.) -/
structure VCState where
  versions : List (String × Version)
  branches : List (String × String)
  auditTrail : List AuditEntry
deriving DecidableEq, Repr

def initialVCState : VCState := ⟨[], [], []⟩

/-- The observable steps `createVersion` takes, in execution order:
lines 50 (`versions.set`), 53 (`branches.set`), 56 (`persistVersion`) and
59 (`addAuditEntry`) of VersionControlEngine.js. -/
inductive VCEvent where
  | setVersion (id : String)
  | setBranchPointer (key id : String)
  | persist (id : String)
  | audit (action : String)
deriving DecidableEq, Repr

/-- Model of `addAuditEntry` (VersionControlEngine.js:429-442), including the
size cap (keep the newest 5000 once 10000 is exceeded). -/
def addAuditEntry (trail : List AuditEntry) (e : AuditEntry) : List AuditEntry :=
  let t := trail ++ [e]
  if t.length > 10000 then t.drop (t.length - 5000) else t

/-- Model of `getNextVersionNumber` (VersionControlEngine.js:75-93).  The branch key
is built by the caller. -/
def getNextVersionNumber (s : VCState) (branchKey : String) : String :=
  match lookupKey s.branches branchKey with
  | none => "1.0.0"
  | some vid =>
      match lookupKey s.versions vid with
      | none => "1.0.0"
      | some cur => incPatch cur.version_number

/-- The `metadata` object literal of `createVersion`
(VersionControlEngine.js:39-46).  The nested reads
`playbook.use_case.use_case_metadata.category` etc. throw a `TypeError`
(caught and re-thrown by the surrounding try/catch) when an intermediate
object is missing; `playbook.metadata?.tags || []` never throws. -/
def buildMetadata (playbook : JValue) : Except String VMetadata := do
  let uc := getField playbook "use_case"
  let ucm ← jsGet uc "use_case_metadata"
  let category ← jsGet ucm "category"
  let rm ← jsGet uc "risk_model"
  let severity ← jsGet rm "base_severity"
  let mitre ← jsGet uc "mitre_techniques"
  let mtags : Option JValue :=
    match getField playbook "metadata" with
    | none => none
    | some .null => none
    | some m => getField m "tags"
  let tags :=
    match mtags with
    | some v => if jsTruthy v then v else JValue.arr []
    | none => JValue.arr []
  pure { size := (serializeJson playbook).length
         platform := getField playbook "platform"
         category := category
         severity := severity
         mitre_techniques := mitre
         tags := tags }

/-- Model of `createVersion` (VersionControlEngine.js:20-73).  Returns the created
Version, the new state, and the trace of mutation/persistence events in
execution order.  Note the source performs **no** validation of
`playbook.playbook_id`; an absent id flows through (the branch key becomes
`"undefined:branch"`). -/
def createVersion (hash : String → String) (newId : String) (now : Nat)
    (playbook : JValue) (changeDescription author branch : String) (s : VCState) :
    Except String (Version × VCState × List VCEvent) :=
  match buildMetadata playbook with
  | .error e => .error ("Version creation failed: " ++ e)
  | .ok md =>
      let checksum := calculateChecksum hash playbook
      let pid := getField playbook "playbook_id"
      let branchKey := jsDisplayOpt pid ++ ":" ++ branch
      let version : Version :=
        { version_id := newId
          playbook_id := pid
          playbook_name := getField playbook "playbook_name"
          version_number := getNextVersionNumber s branchKey
          branch := branch
          checksum := checksum
          created_at := now
          created_by := author
          change_description := changeDescription
          parent_version := lookupKey s.branches branchKey
          playbook_snapshot := playbook
          metadata := md }
      let s' : VCState :=
        { versions := mapSet s.versions newId version
          branches := mapSet s.branches branchKey newId
          auditTrail := addAuditEntry s.auditTrail
            { action := "create_version", version_id := some newId,
              playbook_id := pid, timestamp := now,
              description := changeDescription } }
      .ok (version, s',
        [VCEvent.setVersion newId,
         VCEvent.setBranchPointer branchKey newId,
         VCEvent.persist newId,
         VCEvent.audit "create_version"])

/-- Model of `createBranch` (VersionControlEngine.js:154-201). -/
def createBranch (newId : String) (now : Nat)
    (playbookId branchName fromVersionId author : String) (s : VCState) :
    Except String (Version × VCState) :=
  match lookupKey s.versions fromVersionId with
  | none => .error "Branch creation failed: Source version not found"
  | some fromVersion =>
      if fromVersion.playbook_id ≠ some (JValue.str playbookId) then
        .error "Branch creation failed: Source version does not belong to specified playbook"
      else
        let branchKey := playbookId ++ ":" ++ branchName
        if (lookupKey s.branches branchKey).isSome then
          .error ("Branch creation failed: Branch " ++ branchName ++ " already exists")
        else
          let bv : Version :=
            { fromVersion with
              version_id := newId
              branch := branchName
              created_at := now
              created_by := author
              change_description :=
                "Created branch " ++ branchName ++ " from version "
                  ++ fromVersion.version_number
              parent_version := some fromVersionId }
          .ok (bv,
            { versions := mapSet s.versions newId bv
              branches := mapSet s.branches branchKey newId
              auditTrail := addAuditEntry s.auditTrail
                { action := "create_branch", version_id := some newId,
                  playbook_id := some (JValue.str playbookId), timestamp := now,
                  description := "Created branch " ++ branchName } })

/-- Model of `mergeBranch` (VersionControlEngine.js:203-252): a "theirs"-only merge.
The source head's record is copied onto the target branch (spread copies its
snapshot, checksum and version number), `parent_version` is the prior target
head, `merge_source` the source head id, and the source branch pointer is
deleted.  (If a branch pointer referenced a missing version the source would
spread `undefined` into a field-less record; that state is unreachable —
pointers are only ever set to ids just stored — and is modelled as a
failure.) -/
def mergeBranch (newId : String) (now : Nat)
    (playbookId sourceBranch targetBranch author : String) (s : VCState) :
    Except String (Version × VCState) :=
  match lookupKey s.branches (playbookId ++ ":" ++ sourceBranch) with
  | none => .error ("Branch merge failed: Source branch " ++ sourceBranch ++ " not found")
  | some sourceVersionId =>
      match lookupKey s.versions sourceVersionId with
      | none => .error "Branch merge failed: corrupt state (dangling branch pointer)"
      | some sourceVersion =>
          let mergeVersion : Version :=
            { sourceVersion with
              version_id := newId
              branch := targetBranch
              created_at := now
              created_by := author
              change_description :=
                "Merged branch " ++ sourceBranch ++ " into " ++ targetBranch
              parent_version := lookupKey s.branches (playbookId ++ ":" ++ targetBranch)
              merge_source := some sourceVersionId }
          .ok (mergeVersion,
            { versions := mapSet s.versions newId mergeVersion
              branches :=
                mapDelete (mapSet s.branches (playbookId ++ ":" ++ targetBranch) newId)
                  (playbookId ++ ":" ++ sourceBranch)
              auditTrail := addAuditEntry s.auditTrail
                { action := "merge_branch", version_id := some newId,
                  playbook_id := some (JValue.str playbookId), timestamp := now,
                  description :=
                    "Merged " ++ sourceBranch ++ " into " ++ targetBranch } })

/-- Model of `rollbackToVersion` (VersionControlEngine.js:384-427): a forward-appended
copy of the target version on its own branch. -/
def rollbackToVersion (newId : String) (now : Nat)
    (playbookId versionId author reason : String) (s : VCState) :
    Except String (Version × VCState) :=
  match lookupKey s.versions versionId with
  | none => .error "Rollback failed: Target version not found"
  | some targetVersion =>
      if targetVersion.playbook_id ≠ some (JValue.str playbookId) then
        .error "Rollback failed: Version does not belong to specified playbook"
      else
        let branchKey := playbookId ++ ":" ++ targetVersion.branch
        let rollbackVersion : Version :=
          { targetVersion with
            version_id := newId
            version_number := getNextVersionNumber s branchKey
            created_at := now
            created_by := author
            change_description :=
              "Rollback to version " ++ targetVersion.version_number
                ++ (if reason ≠ "" then ": " ++ reason else "")
            parent_version := lookupKey s.branches branchKey
            rollback_from := some versionId }
        .ok (rollbackVersion,
          { versions := mapSet s.versions newId rollbackVersion
            branches := mapSet s.branches (playbookId ++ ":" ++ rollbackVersion.branch) newId
            auditTrail := addAuditEntry s.auditTrail
              { action := "rollback", version_id := some newId,
                playbook_id := some (JValue.str playbookId), timestamp := now,
                description := "Rollback to version " ++ targetVersion.version_number } })

/-! ## ApprovalGateEngine (src/core/ApprovalGateEngine.js)

The gate predicates read a fixed set of playbook fields (spec §6); the
playbook is modelled as a record of exactly those fields.  The regular
expressions of `isPrivilegedAccount` / `isCriticalAsset` and their
highly-privileged variants are case-insensitive substring, suffix and
`a.*b` patterns; they are modelled by matching on the lowercased string. -/

/-- Substring test on character lists. -/
def containsSub (hay pat : List Char) : Bool :=
  match hay with
  | [] => pat.isEmpty
  | _ :: rest => pat.isPrefixOf hay || containsSub rest pat

/-- The remainder of `hay` after the first occurrence of `pat`. -/
def afterFirst (hay pat : List Char) : Option (List Char) :=
  match hay with
  | [] => if pat.isEmpty then some [] else none
  | _ :: rest =>
      if pat.isPrefixOf hay then some (hay.drop pat.length)
      else afterFirst rest pat

/-- Lowercasing for the case-insensitive (`/i`) patterns. -/
def lowerChars (s : String) : List Char := s.data.map Char.toLower

/-- Case-insensitive `/pat/` (substring) test. -/
def strContains (s pat : String) : Bool := containsSub (lowerChars s) pat.data

/-- Case-insensitive `/pat$/` (suffix) test. -/
def strEndsWith (s pat : String) : Bool := pat.data.isSuffixOf (lowerChars s)

/-- Case-insensitive `/a.*b/` test: an occurrence of `a` followed
(possibly after other characters) by an occurrence of `b`.  Matching after
the first occurrence of `a` is equivalent, since it leaves the longest
remainder. -/
def dotStarMatch (s a b : String) : Bool :=
  match afterFirst (lowerChars s) a.data with
  | some rest => containsSub rest b.data
  | none => false

/-- Model of `isPrivilegedAccount` (ApprovalGateEngine.js:262-277). -/
def isPrivilegedAccount (username : String) : Bool :=
  strContains username "admin" || strContains username "administrator" ||
  strContains username "root" || strEndsWith username "sa" ||
  strContains username "service" || strContains username "privileged" ||
  strContains username "elevated" || strContains username "sudo" ||
  dotStarMatch username "domain" "admin" || dotStarMatch username "enterprise" "admin"

/-- Model of `isHighlyPrivileged` (ApprovalGateEngine.js:279-288). -/
def isHighlyPrivileged (username : String) : Bool :=
  dotStarMatch username "domain" "admin" || dotStarMatch username "enterprise" "admin" ||
  strContains username "ciso" || dotStarMatch username "security" "admin"

/-- Model of `isCriticalAsset` (ApprovalGateEngine.js:290-305); `/dc\d*/` matches any
string containing `"dc"` since `\d*` may be empty. -/
def isCriticalAsset (hostname : String) : Bool :=
  strContains hostname "dc" || dotStarMatch hostname "domain" "controller" ||
  dotStarMatch hostname "ad" "server" || strContains hostname "database" ||
  dotStarMatch hostname "db" "server" || strContains hostname "production" ||
  strContains hostname "finance" || strContains hostname "hr" ||
  strContains hostname "executive" || strContains hostname "critical"

/-- Model of `isHighlyCriticalAsset` (ApprovalGateEngine.js:307-316). -/
def isHighlyCriticalAsset (hostname : String) : Bool :=
  strContains hostname "dc" || dotStarMatch hostname "domain" "controller" ||
  dotStarMatch hostname "production" "db" || dotStarMatch hostname "finance" "db"

/-- Model of `hasHighRiskTechniques` (ApprovalGateEngine.js:318-321). -/
def hasHighRiskTechniques (techniques : List String) : Bool :=
  techniques.any (fun tech => (["T1098", "T1110"] : List String).contains tech)

/-- Model of `hasHighRiskActions` (ApprovalGateEngine.js:323-326). -/
def hasHighRiskActions (actions : List String) : Bool :=
  actions.any (fun action => (["isolate_host", "disable_account"] : List String).contains action)

/-- Approval levels (`level_1 < level_2 < level_3`). -/
inductive ApprovalLevel where
  | level_1 : ApprovalLevel
  | level_2 : ApprovalLevel
  | level_3 : ApprovalLevel
deriving DecidableEq, Repr

/-- Model of `getApprovalLevelPriority` (ApprovalGateEngine.js:335-342). -/
def getApprovalLevelPriority : ApprovalLevel → Nat
  | .level_1 => 1
  | .level_2 => 2
  | .level_3 => 3

/-- Model of `getNextApprovalLevel` (ApprovalGateEngine.js:556-560): the next level
up, or nothing at `level_3`. -/
def getNextApprovalLevel : ApprovalLevel → Option ApprovalLevel
  | .level_1 => some .level_2
  | .level_2 => some .level_3
  | .level_3 => none

structure BusinessHoursConfig where
  enabled : Bool
  start_hour : Nat
  end_hour : Nat
  timezone : String
deriving DecidableEq, Repr

structure ApprovalRequiredFor where
  privileged_accounts : Bool
  critical_assets : Bool
  high_risk_score : Int
  certain_techniques : List String
  certain_actions : List String
  business_hours : BusinessHoursConfig
deriving DecidableEq, Repr

structure EscalationConfig where
  auto_approve_after : Nat
  escalate_after : Nat
  max_approval_time : Nat
deriving DecidableEq, Repr

structure NotificationsConfig where
  email_enabled : Bool
  slack_enabled : Bool
  teams_enabled : Bool
deriving DecidableEq, Repr

/-- The approval configuration document (`approvers` is an object with the
three level keys). -/
structure ApprovalConfig where
  approval_required_for : ApprovalRequiredFor
  approvers_level_1 : List String
  approvers_level_2 : List String
  approvers_level_3 : List String
  escalation : EscalationConfig
  notifications : NotificationsConfig
deriving DecidableEq, Repr

/-- Model of `getDefaultApprovalConfig` (ApprovalGateEngine.js:22-53). -/
def getDefaultApprovalConfig : ApprovalConfig :=
  { approval_required_for :=
      { privileged_accounts := true
        critical_assets := true
        high_risk_score := 80
        certain_techniques := ["T1098", "T1110", "T1110.003"]
        certain_actions := ["isolate_host", "block_source_ip", "disable_account"]
        business_hours :=
          { enabled := true, start_hour := 9, end_hour := 17, timezone := "UTC" } }
    approvers_level_1 := ["security_analyst", "team_lead"]
    approvers_level_2 := ["security_manager", "incident_commander"]
    approvers_level_3 := ["ciso", "director_security"]
    escalation := { auto_approve_after := 24, escalate_after := 4, max_approval_time := 48 }
    notifications := { email_enabled := true, slack_enabled := true, teams_enabled := false } }

/-- Model of `getApproversForLevel` (ApprovalGateEngine.js:395-397). -/
def getApproversForLevel (cfg : ApprovalConfig) : ApprovalLevel → List String
  | .level_1 => cfg.approvers_level_1
  | .level_2 => cfg.approvers_level_2
  | .level_3 => cfg.approvers_level_3

/-- The playbook fields the gate evaluator reads (spec §6): everything else
in the artifact is opaque to this engine.  `username`/`hostname` are the
normalized fields and may be absent; `automated_actions` stands for
`playbook.actions?.automated_actions || []`. -/
structure RiskAdjustment where
  condition : String
  add_score : Int
deriving DecidableEq, Repr

structure PlaybookDoc where
  playbook_id : String
  playbook_name : String
  category : String
  base_severity : String
  risk_score : Int
  risk_adjustments : List RiskAdjustment
  mitre_techniques : List String
  username : Option String
  hostname : Option String
  asset_criticality_aware : Bool
  automated_actions : List String
deriving DecidableEq, Repr

/-- A gate result (ephemeral, one per predicate per evaluation). -/
structure Gate where
  name : String
  triggered : Bool
  approval_level : ApprovalLevel
  reason : String
deriving DecidableEq, Repr

/-- Model of `checkPrivilegedAccountGate` (ApprovalGateEngine.js:112-130). -/
def checkPrivilegedAccountGate (playbook : PlaybookDoc) : Gate :=
  let gate : Gate := ⟨"privileged_account", false, .level_1, ""⟩
  match playbook.username with
  | some username =>
      if username ≠ "" && isPrivilegedAccount username then
        { gate with
          triggered := true
          reason := "Privileged account detected: " ++ username
          approval_level := if isHighlyPrivileged username then .level_2 else .level_1 }
      else gate
  | none => gate

/-- Model of `checkCriticalAssetGate` (ApprovalGateEngine.js:132-150); note its
untriggered default level is `level_2`. -/
def checkCriticalAssetGate (playbook : PlaybookDoc) : Gate :=
  let gate : Gate := ⟨"critical_asset", false, .level_2, ""⟩
  match playbook.hostname with
  | some hostname =>
      if hostname ≠ "" && isCriticalAsset hostname then
        { gate with
          triggered := true
          reason := "Critical asset detected: " ++ hostname
          approval_level := if isHighlyCriticalAsset hostname then .level_3 else .level_2 }
      else gate
  | none => gate

/-- Model of `checkRiskScoreGate` (ApprovalGateEngine.js:152-170). -/
def checkRiskScoreGate (cfg : ApprovalConfig) (playbook : PlaybookDoc) : Gate :=
  let gate : Gate := ⟨"risk_score", false, .level_1, ""⟩
  let threshold := cfg.approval_required_for.high_risk_score
  if playbook.risk_score ≥ threshold then
    { gate with
      triggered := true
      reason := "High risk score: " ++ intToString playbook.risk_score
        ++ " (threshold: " ++ intToString threshold ++ ")"
      approval_level := if playbook.risk_score ≥ 90 then .level_2 else .level_1 }
  else gate

/-- Model of `checkTechniqueGate` (ApprovalGateEngine.js:172-192). -/
def checkTechniqueGate (cfg : ApprovalConfig) (playbook : PlaybookDoc) : Gate :=
  let gate : Gate := ⟨"technique", false, .level_1, ""⟩
  let matching := playbook.mitre_techniques.filter
    (fun tech => cfg.approval_required_for.certain_techniques.contains tech)
  if matching.length > 0 then
    { gate with
      triggered := true
      reason := "Restricted MITRE techniques: " ++ String.intercalate ", " matching
      approval_level := if hasHighRiskTechniques matching then .level_2 else .level_1 }
  else gate

/-- Model of `checkActionGate` (ApprovalGateEngine.js:194-214). -/
def checkActionGate (cfg : ApprovalConfig) (playbook : PlaybookDoc) : Gate :=
  let gate : Gate := ⟨"action", false, .level_1, ""⟩
  let matching := playbook.automated_actions.filter
    (fun action => cfg.approval_required_for.certain_actions.contains action)
  if matching.length > 0 then
    { gate with
      triggered := true
      reason := "Restricted actions: " ++ String.intercalate ", " matching
      approval_level := if hasHighRiskActions matching then .level_2 else .level_1 }
  else gate

/-- Model of `isBusinessHours` (ApprovalGateEngine.js:328-333): the evaluating
process's current local hour against the configured window (the configured
timezone is not consulted — spec §9 flags this).  The current hour is a
nondeterministic input, passed explicitly. -/
def isBusinessHours (config : BusinessHoursConfig) (currentHour : Nat) : Bool :=
  config.start_hour ≤ currentHour && currentHour < config.end_hour

/-- Model of `checkBusinessHoursGate` (ApprovalGateEngine.js:216-233). -/
def checkBusinessHoursGate (cfg : ApprovalConfig) (currentHour : Nat) : Gate :=
  let gate : Gate := ⟨"business_hours", false, .level_1, ""⟩
  let config := cfg.approval_required_for.business_hours
  if config.enabled && !isBusinessHours config currentHour then
    { gate with triggered := true, reason := "Execution outside business hours" }
  else gate

/-- Model of `checkAssetCriticalityGate` (ApprovalGateEngine.js:235-260). -/
def checkAssetCriticalityGate (playbook : PlaybookDoc) : Gate :=
  let gate : Gate := ⟨"asset_criticality", false, .level_1, ""⟩
  if playbook.asset_criticality_aware then
    match playbook.risk_adjustments.find?
      (fun adj => adj.condition == "high_critical_asset" || adj.condition == "server_host") with
    | some adj =>
        { gate with
          triggered := true
          reason := "High criticality asset involved"
          approval_level := if adj.add_score ≥ 30 then .level_2 else .level_1 }
    | none => gate
  else gate

/-- The decision object assembled by `evaluateApprovalGates`
(ApprovalGateEngine.js:56-64). -/
structure ApprovalDecision where
  requires_approval : Bool
  approval_level : Option ApprovalLevel
  gates_triggered : List Gate
  auto_approve : Bool
  reason : String
  approval_id : Option String
  expires_at : Option Nat
deriving DecidableEq, Repr

/-- The gate-accumulation loop of `evaluateApprovalGates`
(ApprovalGateEngine.js:79-91): each triggered gate forces approval, is
appended, and raises the level when its priority is strictly higher (or the
level is still unset). -/
def foldGates (d : ApprovalDecision) (gates : List Gate) : ApprovalDecision :=
  gates.foldl
    (fun acc gate =>
      if gate.triggered then
        let acc := { acc with
          requires_approval := true
          gates_triggered := acc.gates_triggered ++ [gate] }
        match acc.approval_level with
        | none => { acc with approval_level := some gate.approval_level }
        | some cur =>
            if getApprovalLevelPriority gate.approval_level > getApprovalLevelPriority cur
            then { acc with approval_level := some gate.approval_level }
            else acc
      else acc)
    d

/-- Model of `generateApprovalReason` (ApprovalGateEngine.js:344-347). -/
def generateApprovalReason (gates : List Gate) : String :=
  "Approval required: " ++ String.intercalate "; " (gates.map Gate.reason)

/-- Model of `calculateExpirationTime` (ApprovalGateEngine.js:349-354):
now + `max_approval_time` hours, in milliseconds. -/
def calculateExpirationTime (cfg : ApprovalConfig) (now : Nat) : Nat :=
  now + cfg.escalation.max_approval_time * 3600000

inductive RequestStatus where
  | pending : RequestStatus
  | approved : RequestStatus
  | rejected : RequestStatus
  | expired : RequestStatus
deriving DecidableEq, Repr

def statusString : RequestStatus → String
  | .pending => "pending"
  | .approved => "approved"
  | .rejected => "rejected"
  | .expired => "expired"

/-- A stored approval request (ApprovalGateEngine.js:357-372 plus the
terminal/escalation fields written later).  The derived `playbook_summary`
and the opaque `execution_context` are display-only and not modelled. -/
structure ApprovalRequest where
  approval_id : String
  playbook_id : String
  playbook_name : String
  approval_level : ApprovalLevel
  gates_triggered : List Gate
  reason : String
  status : RequestStatus
  created_at : Nat
  expires_at : Nat
  requested_by : String
  approvers : List String
  notifications_sent : Bool
  approved_by : Option String := none
  approved_at : Option Nat := none
  approval_comments : Option String := none
  rejected_by : Option String := none
  rejected_at : Option Nat := none
  rejection_reason : Option String := none
  escalated_at : Option Nat := none
  expired_at : Option Nat := none
deriving DecidableEq, Repr

/-- An `approvalHistory` entry (`comments` for approvals, `reason` for
rejections). -/
structure AGHistoryEntry where
  action : String
  approval_id : String
  approver : String
  timestamp : Nat
  comments : Option String
  reason : Option String
deriving DecidableEq, Repr

/-- The approval engine's mutable state. -/
structure AGState where
  approvalStore : List (String × ApprovalRequest)
  approvalHistory : List AGHistoryEntry
deriving DecidableEq, Repr

def initialAGState : AGState := ⟨[], []⟩

/-- Model of `shouldSendNotifications` (ApprovalGateEngine.js:399-402). -/
def shouldSendNotifications (cfg : ApprovalConfig) : Bool :=
  cfg.notifications.email_enabled || cfg.notifications.slack_enabled

/-- Model of `isValidApprover` (ApprovalGateEngine.js:486-489). -/
def isValidApprover (cfg : ApprovalConfig) (approver : String) (requiredLevel : ApprovalLevel) : Bool :=
  (getApproversForLevel cfg requiredLevel).contains approver

/-- Model of `evaluateApprovalGates` (ApprovalGateEngine.js:55-110) together with
`createApprovalRequest` (356-382).  `now`, the local `currentHour`, the
generated `approval_id` and the context user are nondeterministic inputs.
When approval is required a pending request is stored; `notifications_sent`
ends up `true` exactly when `shouldSendNotifications` holds (it is set
`false` at creation, then flipped by `sendApprovalNotifications`).  A
triggered gate always carries a level, so the decision's level is present
whenever `requires_approval` is set; the `.getD .level_1` fallback is never
taken. -/
def evaluateApprovalGates (cfg : ApprovalConfig) (playbook : PlaybookDoc)
    (ctxUser : Option String) (now currentHour : Nat) (newApprovalId : String)
    (st : AGState) : ApprovalDecision × AGState :=
  let gates := [checkPrivilegedAccountGate playbook,
    checkCriticalAssetGate playbook,
    checkRiskScoreGate cfg playbook,
    checkTechniqueGate cfg playbook,
    checkActionGate cfg playbook,
    checkBusinessHoursGate cfg currentHour,
    checkAssetCriticalityGate playbook]
  let d := foldGates ⟨false, none, [], false, "", none, none⟩ gates
  if d.requires_approval then
    let d := { d with
      reason := generateApprovalReason d.gates_triggered
      approval_id := some newApprovalId
      expires_at := some (calculateExpirationTime cfg now) }
    let level := d.approval_level.getD .level_1
    let request : ApprovalRequest :=
      { approval_id := newApprovalId
        playbook_id := playbook.playbook_id
        playbook_name := playbook.playbook_name
        approval_level := level
        gates_triggered := d.gates_triggered
        reason := d.reason
        status := .pending
        created_at := now
        expires_at := calculateExpirationTime cfg now
        requested_by := ctxUser.getD "system"
        approvers := getApproversForLevel cfg level
        notifications_sent := shouldSendNotifications cfg }
    (d, { st with approvalStore := mapSet st.approvalStore newApprovalId request })
  else
    ({ d with reason := "No approval gates triggered", auto_approve := true }, st)

/-- Model of `rejectRequest` (ApprovalGateEngine.js:451-484).  The `reason` argument
is modelled as `Option String` since JavaScript callers may omit it; the
function body never examines whether it is present. -/
def rejectRequest (cfg : ApprovalConfig) (approvalId approver : String)
    (reason : Option String) (now : Nat) (st : AGState) :
    Except String (ApprovalRequest × AGState) :=
  match lookupKey st.approvalStore approvalId with
  | none => .error "Approval request not found"
  | some request =>
      if request.status ≠ .pending then
        .error ("Approval request is " ++ statusString request.status ++ ", cannot reject")
      else if ¬ isValidApprover cfg approver request.approval_level then
        .error "User is not authorized to reject this request"
      else
        let request' := { request with
          status := .rejected
          rejected_by := some approver
          rejected_at := some now
          rejection_reason := reason }
        .ok (request',
          { approvalStore := mapSet st.approvalStore approvalId request'
            approvalHistory := st.approvalHistory ++
              [{ action := "reject", approval_id := approvalId, approver := approver,
                 timestamp := now, comments := none, reason := reason }] })

/-- The per-request escalation step of `escalatePendingApprovals`
(ApprovalGateEngine.js:536-550): a pending request older than the
escalate-after duration moves to the next level (when one exists) and takes
that level's roster; everything else — in particular `expires_at` — is left
alone. -/
def escalateOne (cfg : ApprovalConfig) (now : Nat) (r : ApprovalRequest) : ApprovalRequest :=
  if r.status = .pending ∧ cfg.escalation.escalate_after * 3600000 < now - r.created_at then
    match getNextApprovalLevel r.approval_level with
    | some nextLevel =>
        { r with
          approval_level := nextLevel
          escalated_at := some now
          approvers := getApproversForLevel cfg nextLevel }
    | none => r
  else r

/-- Whether `escalatePendingApprovals` escalates (and reports) a request:
pending, older than the escalate-after duration, and not yet at the top
level. -/
def escalatesNow (cfg : ApprovalConfig) (now : Nat) (r : ApprovalRequest) : Bool :=
  decide (r.status = RequestStatus.pending) &&
  decide (cfg.escalation.escalate_after * 3600000 < now - r.created_at) &&
  (getNextApprovalLevel r.approval_level).isSome

/-- Model of `escalatePendingApprovals` (ApprovalGateEngine.js:531-554): sweeps the
whole store, escalating each eligible pending request in place, and returns
the escalated requests. -/
def escalatePendingApprovals (cfg : ApprovalConfig) (now : Nat) (st : AGState) :
    AGState × List ApprovalRequest :=
  let store' := st.approvalStore.map (fun kv => (kv.1, escalateOne cfg now kv.2))
  let escalated :=
    (st.approvalStore.filter (fun kv => escalatesNow cfg now kv.2)).map
      (fun kv => escalateOne cfg now kv.2)
  ({ st with approvalStore := store' }, escalated)

/-! ## Invariants, trace predicates and concrete fixtures -/

/-- The checksum integrity invariant: every stored version's checksum is the
hash of the canonical serialization of its snapshot (canonicalization as
implemented by `calculateChecksum`). -/
def ChecksumInv (hash : String → String) (s : VCState) : Prop :=
  ∀ k v, lookupKey s.versions k = some v →
    v.checksum = calculateChecksum hash v.playbook_snapshot

/-- States reachable from the empty engine state through the four
version-storing operations. -/
inductive ReachableVC (hash : String → String) : VCState → Prop where
  | init : ReachableVC hash initialVCState
  | step_createVersion {s : VCState} {v : Version} {s' : VCState} {evs : List VCEvent}
      (newId : String) (now : Nat) (playbook : JValue) (d a b : String) :
      ReachableVC hash s →
      createVersion hash newId now playbook d a b s = .ok (v, s', evs) →
      ReachableVC hash s'
  | step_createBranch {s : VCState} {v : Version} {s' : VCState}
      (newId : String) (now : Nat) (pid bn fv a : String) :
      ReachableVC hash s →
      createBranch newId now pid bn fv a s = .ok (v, s') →
      ReachableVC hash s'
  | step_mergeBranch {s : VCState} {v : Version} {s' : VCState}
      (newId : String) (now : Nat) (pid sb tb a : String) :
      ReachableVC hash s →
      mergeBranch newId now pid sb tb a s = .ok (v, s') →
      ReachableVC hash s'
  | step_rollback {s : VCState} {v : Version} {s' : VCState}
      (newId : String) (now : Nat) (pid vid a r : String) :
      ReachableVC hash s →
      rollbackToVersion newId now pid vid a r s = .ok (v, s') →
      ReachableVC hash s'

/-- Every durable write happens before every branch-pointer update (the
ordering the spec's crash-recovery contract demands). -/
def persistedBeforePointer (evs : List VCEvent) : Prop :=
  ∀ i j pid key vid, evs.get? i = some (VCEvent.persist pid) →
    evs.get? j = some (VCEvent.setBranchPointer key vid) → i < j

/-- Every branch-pointer update happens before every durable write (the
order the code actually executes). -/
def pointerBeforePersisted (evs : List VCEvent) : Prop :=
  ∀ i j key vid pid, evs.get? i = some (VCEvent.setBranchPointer key vid) →
    evs.get? j = some (VCEvent.persist pid) → i < j

/-- The identity function, standing in for sha256 in concrete runs (no claim
depends on any property of the digest beyond being a function). -/
def idHash : String → String := fun s => s

def okOr {ε α : Type} (d : α) : Except ε α → α
  | .ok a => a
  | .error _ => d

def emptyVersion : Version :=
  { version_id := "", playbook_id := none, playbook_name := none,
    version_number := "", branch := "", checksum := "", created_at := 0,
    created_by := "", change_description := "", parent_version := none,
    playbook_snapshot := .null,
    metadata := ⟨0, none, none, none, none, .arr []⟩ }

/-- A well-formed playbook document. -/
def pbFull : JValue :=
  .obj [("playbook_id", .str "pb1"),
        ("playbook_name", .str "Test"),
        ("platform", .str "splunk"),
        ("use_case", .obj [
          ("use_case_metadata", .obj [("category", .str "authentication")]),
          ("risk_model", .obj [("base_severity", .str "High")]),
          ("mitre_techniques", .arr [.str "T1110"])])]

/-- A playbook document with no `playbook_id` (all the nested fields
`createVersion`'s metadata block dereferences are present). -/
def pbNoId : JValue :=
  .obj [("playbook_name", .str "Test"),
        ("platform", .str "splunk"),
        ("use_case", .obj [
          ("use_case_metadata", .obj [("category", .str "authentication")]),
          ("risk_model", .obj [("base_severity", .str "High")]),
          ("mitre_techniques", .arr [.str "T1110"])])]

/-- A concrete run: `v1` then `v2` on `main`, branch `feature` cut at `v1`,
then `feature` merged into `main` as `v4`. -/
def run1 : Version × VCState × List VCEvent :=
  okOr (emptyVersion, initialVCState, [])
    (createVersion idHash "v1" 1 pbFull "" "a" "main" initialVCState)

def vr1 : Version := run1.1
def st1 : VCState := run1.2.1

def run2 : Version × VCState × List VCEvent :=
  okOr (emptyVersion, initialVCState, [])
    (createVersion idHash "v2" 2 pbFull "" "a" "main" st1)

def vr2 : Version := run2.1
def st2 : VCState := run2.2.1

def run3 : Version × VCState :=
  okOr (emptyVersion, initialVCState)
    (createBranch "v3" 3 "pb1" "feature" "v1" "a" st2)

def vb3 : Version := run3.1
def st3 : VCState := run3.2

def run4 : Version × VCState :=
  okOr (emptyVersion, initialVCState)
    (mergeBranch "v4" 4 "pb1" "feature" "main" "a" st3)

def mv4 : Version := run4.1
def st4 : VCState := run4.2

/-- The configuration of spec §8's worked gate example:
`high_risk_score` 80 and restricted techniques `["T1098"]` (defaults
elsewhere). -/
def cfgC6 : ApprovalConfig :=
  { getDefaultApprovalConfig with
    approval_required_for :=
      { getDefaultApprovalConfig.approval_required_for with
        high_risk_score := 80
        certain_techniques := ["T1098"] } }

/-- The playbook of spec §8's worked gate example: risk score 85, technique
`T1110`, username `svc_admin`, and no other gate condition met. -/
def pbC6 : PlaybookDoc :=
  { playbook_id := "pb-1"
    playbook_name := "Brute Force Response"
    category := "authentication"
    base_severity := "High"
    risk_score := 85
    risk_adjustments := []
    mitre_techniques := ["T1110"]
    username := some "svc_admin"
    hostname := none
    asset_criticality_aware := false
    automated_actions := [] }

/-- A pending level-1 approval request, created at time 0. -/
def reqA : ApprovalRequest :=
  { approval_id := "a1", playbook_id := "pb1", playbook_name := "Test",
    approval_level := .level_1, gates_triggered := [], reason := "",
    status := .pending, created_at := 0, expires_at := 999,
    requested_by := "system",
    approvers := ["security_analyst", "team_lead"],
    notifications_sent := true }

def stA : AGState := ⟨[("a1", reqA)], []⟩

/-- Two playbooks with the same top-level keys that agree everywhere the
replacer looks but differ in a nested field whose key (`"b"`) is not a
top-level key name. -/
def pbColA : JValue := .obj [("a", .obj [("a", .num 1), ("b", .num 2)])]

def pbColB : JValue := .obj [("a", .obj [("a", .num 1), ("b", .num 3)])]

/-! ## Helper lemmas for the claim proofs -/

theorem strAppend_left_cancel (a b c : String) (h : a ++ b = a ++ c) : b = c := by
  have h' : (a ++ b).data = (a ++ c).data := by rw [h]
  rw [String.data_append, String.data_append] at h'
  have h'' := List.append_cancel_left h'
  cases b
  cases c
  exact congrArg String.mk h''

/-! ## Claims -/

/-- C1, counterexample: the spec says `createVersion` fails with a
`ValidationError` when the playbook lacks a `playbook_id` and creates no
version.  The code performs no such validation: on `pbNoId` (which has no
`playbook_id` but has all the nested fields the metadata block reads) the
call succeeds and stores one version, whose `playbook_id` is undefined. -/
theorem C1_counterexample :
    getField pbNoId "playbook_id" = none
    ∧ (createVersion idHash "v1" 0 pbNoId "" "system" "main" initialVCState).isOk = true
    ∧ ((createVersion idHash "v1" 0 pbNoId "" "system" "main" initialVCState).map
        (fun r => (r.1.playbook_id, r.2.1.versions.length))) = .ok (none, 1) :=
  ⟨rfl, rfl, rfl⟩

/-- C1, amended: `createVersion` does not validate `playbook_id`.  For every
playbook lacking `playbook_id` whose metadata reads succeed, the call
succeeds, returns a version with `playbook_id` undefined, stores it, and
registers the branch pointer under the `"undefined:<branch>"` key. -/
theorem C1_update (hash : String → String) (newId : String) (now : Nat)
    (playbook : JValue) (d a b : String) (s : VCState) (md : VMetadata)
    (hid : getField playbook "playbook_id" = none)
    (hmd : buildMetadata playbook = .ok md) :
    ∃ v s' evs, createVersion hash newId now playbook d a b s = .ok (v, s', evs)
      ∧ v.playbook_id = none
      ∧ lookupKey s'.versions newId = some v
      ∧ lookupKey s'.branches ("undefined" ++ ":" ++ b) = some newId := by
  unfold createVersion
  rw [hmd]
  refine ⟨_, _, _, rfl, hid, ?_, ?_⟩
  · exact lookupKey_mapSet_self _ _ _
  · rw [hid]
    exact lookupKey_mapSet_self _ _ _

theorem C1_witness :
    ∃ v s' evs,
      createVersion idHash "v1" 0 pbNoId "" "system" "main" initialVCState = .ok (v, s', evs)
      ∧ v.playbook_id = none
      ∧ lookupKey s'.versions "v1" = some v
      ∧ lookupKey s'.branches ("undefined" ++ ":" ++ "main") = some "v1" :=
  C1_update idHash "v1" 0 pbNoId "" "system" "main" initialVCState _ rfl rfl

/-- C4, counterexample: the spec requires the Version record to be written to
durable storage before the in-memory branch pointer is updated.  In the
code's execution order (`versions.set`, `branches.set`, `persistVersion`,
audit) the pointer update (index 1) precedes the durable write (index 2), so
the required ordering fails on this successful concrete run. -/
theorem C4_counterexample :
    ((createVersion idHash "v1" 1 pbFull "" "a" "main" initialVCState).map (fun r => r.2.2)
      = .ok [VCEvent.setVersion "v1", VCEvent.setBranchPointer "pb1:main" "v1",
             VCEvent.persist "v1", VCEvent.audit "create_version"])
    ∧ ¬ persistedBeforePointer
        [VCEvent.setVersion "v1", VCEvent.setBranchPointer "pb1:main" "v1",
         VCEvent.persist "v1", VCEvent.audit "create_version"] := by
  refine ⟨rfl, fun h => ?_⟩
  have := h 2 1 "v1" "pb1:main" "v1" rfl rfl
  omega

/-- C4, amended: in every successful `createVersion` execution the events
occur in the fixed order store, branch-pointer update, durable write, audit —
so the in-memory branch pointer is updated **before** the Version record is
persisted (the reverse of the spec's crash-recovery ordering). -/
theorem C4_update (hash : String → String) (newId : String) (now : Nat)
    (playbook : JValue) (d a b : String) (s : VCState)
    (v : Version) (s' : VCState) (evs : List VCEvent)
    (h : createVersion hash newId now playbook d a b s = .ok (v, s', evs)) :
    evs = [VCEvent.setVersion newId,
      VCEvent.setBranchPointer
        (jsDisplayOpt (getField playbook "playbook_id") ++ ":" ++ b) newId,
      VCEvent.persist newId, VCEvent.audit "create_version"]
    ∧ pointerBeforePersisted evs := by
  unfold createVersion at h
  cases hmd : buildMetadata playbook with
  | error e =>
      rw [hmd] at h
      exact absurd h (by simp)
  | ok md =>
      rw [hmd] at h
      simp only [Except.ok.injEq, Prod.mk.injEq] at h
      obtain ⟨-, -, hevs⟩ := h
      subst hevs
      refine ⟨rfl, ?_⟩
      intro i j key vid pid hi hj
      have hi1 : i = 1 := by
        rcases i with _ | _ | _ | _ | i
        · exact absurd hi (by simp)
        · rfl
        · exact absurd hi (by simp)
        · exact absurd hi (by simp)
        · exact absurd hi (by simp [List.get?])
      have hj2 : j = 2 := by
        rcases j with _ | _ | _ | _ | j
        · exact absurd hj (by simp)
        · exact absurd hj (by simp)
        · rfl
        · exact absurd hj (by simp)
        · exact absurd hj (by simp [List.get?])
      omega

theorem C4_witness :
    [VCEvent.setVersion "v1", VCEvent.setBranchPointer "pb1:main" "v1",
     VCEvent.persist "v1", VCEvent.audit "create_version"]
      = [VCEvent.setVersion "v1",
         VCEvent.setBranchPointer
           (jsDisplayOpt (getField pbFull "playbook_id") ++ ":" ++ "main") "v1",
         VCEvent.persist "v1", VCEvent.audit "create_version"]
    ∧ pointerBeforePersisted
        [VCEvent.setVersion "v1", VCEvent.setBranchPointer "pb1:main" "v1",
         VCEvent.persist "v1", VCEvent.audit "create_version"] :=
  C4_update idHash "v1" 1 pbFull "" "a" "main" initialVCState _ _ _ rfl

/-- C6: with `high_risk_score` 80 and restricted techniques `["T1098"]`,
evaluating the playbook with risk score 85, techniques `["T1110"]` and
username `"svc_admin"` (no other gate condition met; the evaluation hour, 10,
is inside the business-hours window) triggers exactly the
`privileged_account` gate at `level_1` and the `risk_score` gate at
`level_1`, does not trigger the `technique` gate, and yields
`requires_approval = true` with `approval_level = level_1`. -/
theorem C6_prop :
    (evaluateApprovalGates cfgC6 pbC6 none 0 10 "approval-1" initialAGState).1.requires_approval
        = true
    ∧ (evaluateApprovalGates cfgC6 pbC6 none 0 10 "approval-1" initialAGState).1.approval_level
        = some ApprovalLevel.level_1
    ∧ ((evaluateApprovalGates cfgC6 pbC6 none 0 10 "approval-1" initialAGState).1.gates_triggered.map
          (fun g => (g.name, g.approval_level)))
        = [("privileged_account", ApprovalLevel.level_1),
           ("risk_score", ApprovalLevel.level_1)]
    ∧ (checkTechniqueGate cfgC6 pbC6).triggered = false := by
  refine ⟨?_, ?_, ?_, ?_⟩ <;> decide

/-- C8, counterexample: the spec says `rejectRequest` fails with a
`ValidationError` when `reason` is absent and leaves the request unchanged.
The engine method never checks `reason`: on a pending request with an
authorized approver and no reason, the call succeeds and the request is
rejected (with `rejection_reason` unset). -/
theorem C8_counterexample :
    (rejectRequest getDefaultApprovalConfig "a1" "security_analyst" none 5 stA).isOk = true
    ∧ ((rejectRequest getDefaultApprovalConfig "a1" "security_analyst" none 5 stA).map
        (fun r => (r.1.status, r.1.rejection_reason)))
      = .ok (RequestStatus.rejected, none) :=
  ⟨rfl, rfl⟩

/-- C8, amended: `rejectRequest` does not validate the presence of `reason`
(the HTTP layer, not the engine, enforces it).  Whenever the request exists,
is pending, and the approver is in the current level's roster, a call with
`reason` absent succeeds, marks the request rejected and stores it with
`rejection_reason` unset. -/
theorem C8_update (cfg : ApprovalConfig) (approvalId approver : String) (now : Nat)
    (st : AGState) (r : ApprovalRequest)
    (hr : lookupKey st.approvalStore approvalId = some r)
    (hp : r.status = .pending)
    (ha : isValidApprover cfg approver r.approval_level = true) :
    ∃ r' st', rejectRequest cfg approvalId approver none now st = .ok (r', st')
      ∧ r'.status = .rejected
      ∧ r'.rejection_reason = none
      ∧ lookupKey st'.approvalStore approvalId = some r' := by
  unfold rejectRequest
  simp only [hr]
  have hnp : ¬ r.status ≠ RequestStatus.pending := by simp [hp]
  have hna : ¬ ¬ isValidApprover cfg approver r.approval_level = true := by simp [ha]
  rw [if_neg hnp, if_neg hna]
  refine ⟨_, _, rfl, rfl, rfl, ?_⟩
  exact lookupKey_mapSet_self _ _ _

theorem C8_witness :
    ∃ r' st',
      rejectRequest getDefaultApprovalConfig "a1" "security_analyst" none 5 stA = .ok (r', st')
      ∧ r'.status = .rejected
      ∧ r'.rejection_reason = none
      ∧ lookupKey st'.approvalStore "a1" = some r' :=
  C8_update getDefaultApprovalConfig "a1" "security_analyst" 5 stA reqA rfl rfl rfl

/-- C3: `mergeBranch` fails with a not-found error when the source branch
has no head; otherwise it creates on the target branch a version whose
snapshot is exactly the source head's snapshot, with `parent_version` the
prior target head and `merge_source` the source head id, and afterwards the
source branch pointer no longer exists (the target pointer moves to the new
version).  Stated for distinct source/target branches, as in the claim's
scenario. -/
theorem C3_prop (newId : String) (now : Nat) (pid sb tb author : String)
    (s : VCState) (hdist : sb ≠ tb) :
    (lookupKey s.branches (pid ++ ":" ++ sb) = none →
      mergeBranch newId now pid sb tb author s
        = .error ("Branch merge failed: Source branch " ++ sb ++ " not found"))
    ∧ (∀ svid sv, lookupKey s.branches (pid ++ ":" ++ sb) = some svid →
        lookupKey s.versions svid = some sv →
        ∃ mv s', mergeBranch newId now pid sb tb author s = .ok (mv, s')
          ∧ mv.playbook_snapshot = sv.playbook_snapshot
          ∧ mv.branch = tb
          ∧ mv.parent_version = lookupKey s.branches (pid ++ ":" ++ tb)
          ∧ mv.merge_source = some svid
          ∧ lookupKey s'.branches (pid ++ ":" ++ sb) = none
          ∧ lookupKey s'.branches (pid ++ ":" ++ tb) = some newId
          ∧ lookupKey s'.versions newId = some mv) := by
  have hkeys : pid ++ ":" ++ sb ≠ pid ++ ":" ++ tb := by
    intro h
    exact hdist (strAppend_left_cancel _ _ _ h)
  constructor
  · intro h
    unfold mergeBranch
    simp only [h]
  · intro svid sv h1 h2
    unfold mergeBranch
    simp only [h1, h2]
    refine ⟨_, _, rfl, rfl, rfl, rfl, rfl, ?_, ?_, ?_⟩
    · exact lookupKey_mapDelete_self _ _
    · rw [lookupKey_mapDelete_ne _ _ _ hkeys]
      exact lookupKey_mapSet_self _ _ _
    · exact lookupKey_mapSet_self _ _ _

theorem C3_witness :
    (mergeBranch "m0" 0 "p" "feat" "main" "x" initialVCState
      = .error ("Branch merge failed: Source branch " ++ "feat" ++ " not found"))
    ∧ (∃ mv s', mergeBranch "v4" 4 "pb1" "feature" "main" "a" st3 = .ok (mv, s')
        ∧ mv.playbook_snapshot = vb3.playbook_snapshot
        ∧ mv.branch = "main"
        ∧ mv.parent_version = lookupKey st3.branches ("pb1" ++ ":" ++ "main")
        ∧ mv.merge_source = some "v3"
        ∧ lookupKey s'.branches ("pb1" ++ ":" ++ "feature") = none
        ∧ lookupKey s'.branches ("pb1" ++ ":" ++ "main") = some "v4"
        ∧ lookupKey s'.versions "v4" = some mv) := by
  constructor
  · exact (C3_prop "m0" 0 "p" "feat" "main" "x" initialVCState (by decide)).1 rfl
  · exact (C3_prop "v4" 4 "pb1" "feature" "main" "a" st3 (by decide)).2 "v3" vb3 rfl rfl

/-- C9: a merge copies the source head's `version_number` and `checksum`
unchanged (no patch-increment against the target branch), so after a merge
the target head's number can be lower than its parent's: in the concrete run
`v1`,`v2` on `main`, branch `feature` at `v1`, merge `feature` into `main`,
the merged head carries `"1.0.0"` while its `parent_version` `v2` carries
`"1.0.1"` (patch 0 < patch 1). -/
theorem C9_prop :
    (∀ (newId : String) (now : Nat) (pid sb tb author : String) (s : VCState)
        (svid : String) (sv mv : Version) (s' : VCState),
        lookupKey s.branches (pid ++ ":" ++ sb) = some svid →
        lookupKey s.versions svid = some sv →
        mergeBranch newId now pid sb tb author s = .ok (mv, s') →
        mv.version_number = sv.version_number ∧ mv.checksum = sv.checksum)
    ∧ (mv4.version_number = vb3.version_number
       ∧ mv4.checksum = vb3.checksum
       ∧ mv4.parent_version = some "v2"
       ∧ (lookupKey st4.versions "v2").map Version.version_number = some "1.0.1"
       ∧ mv4.version_number = "1.0.0"
       ∧ patchOf "1.0.0" = some 0
       ∧ patchOf "1.0.1" = some 1
       ∧ (0 : Nat) < 1) := by
  constructor
  · intro newId now pid sb tb author s svid sv mv s' h1 h2 hm
    unfold mergeBranch at hm
    simp only [h1, h2, Except.ok.injEq, Prod.mk.injEq] at hm
    obtain ⟨hmv, -⟩ := hm
    subst hmv
    exact ⟨rfl, rfl⟩
  · exact ⟨rfl, rfl, rfl, rfl, rfl, rfl, rfl, Nat.zero_lt_one⟩

theorem C9_witness :
    mv4.version_number = vb3.version_number ∧ mv4.checksum = vb3.checksum :=
  (C9_prop).1 "v4" 4 "pb1" "feature" "main" "a" st3 "v3" vb3 mv4 st4 rfl rfl rfl

/-- C10: `calculateChecksum` serializes with the playbook's sorted top-level
key names as a `JSON.stringify` array replacer, which filters **every**
nesting level to those names.  Hence any two playbooks with the same
top-level keys whose replacer-filtered views coincide get the same checksum —
even when they differ in a nested field whose key is not a top-level key
name, as the concrete pair `pbColA`/`pbColB` (differing at nested `"b"`)
shows. -/
theorem C10_prop :
    (∀ (hash : String → String) (p q : JValue),
        sortKeys p.topKeys = sortKeys q.topKeys →
        filterView (sortKeys p.topKeys) p = filterView (sortKeys q.topKeys) q →
        calculateChecksum hash p = calculateChecksum hash q)
    ∧ (pbColA ≠ pbColB
       ∧ sortKeys pbColA.topKeys = sortKeys pbColB.topKeys
       ∧ filterView (sortKeys pbColA.topKeys) pbColA
           = filterView (sortKeys pbColB.topKeys) pbColB
       ∧ "b" ∉ pbColA.topKeys
       ∧ getField pbColA "a" ≠ getField pbColB "a"
       ∧ calculateChecksum idHash pbColA = calculateChecksum idHash pbColB) := by
  constructor
  · intro hash p q hk hv
    unfold calculateChecksum
    rw [stringifyWith_eq_filterView, stringifyWith_eq_filterView, hv]
  · refine ⟨?_, rfl, rfl, ?_, ?_, rfl⟩
    · exact fun h => absurd (congrArg serializeJson h) (by decide)
    · decide
    · exact fun h =>
        absurd (congrArg (fun o => Option.map serializeJson o) h) (by decide)

theorem C10_witness :
    calculateChecksum idHash pbColA = calculateChecksum idHash pbColB :=
  (C10_prop).1 idHash pbColA pbColB rfl rfl

/-- C7: one `escalatePendingApprovals` sweep rewrites each stored request by
`escalateOne`: a pending request older than the escalate-after duration
advances exactly one level (never skipping, `level_3` capped: the priority
becomes `min (old + 1) 3` and a `level_3` request is left untouched), takes
the new level's configured roster, and `expires_at` is never altered; any
other request is untouched; and no sequence of sweeps ever pushes a level
past `level_3`. -/
theorem C7_prop (cfg : ApprovalConfig) (now : Nat) (st : AGState) (k : String)
    (r : ApprovalRequest) (hr : lookupKey st.approvalStore k = some r) :
    lookupKey (escalatePendingApprovals cfg now st).1.approvalStore k
        = some (escalateOne cfg now r)
    ∧ (escalateOne cfg now r).expires_at = r.expires_at
    ∧ (r.status = RequestStatus.pending →
        cfg.escalation.escalate_after * 3600000 < now - r.created_at →
          getApprovalLevelPriority (escalateOne cfg now r).approval_level
              = min (getApprovalLevelPriority r.approval_level + 1) 3
          ∧ (r.approval_level ≠ ApprovalLevel.level_3 →
              (escalateOne cfg now r).approvers
                = getApproversForLevel cfg (escalateOne cfg now r).approval_level)
          ∧ (r.approval_level = ApprovalLevel.level_3 → escalateOne cfg now r = r))
    ∧ (¬ (r.status = RequestStatus.pending ∧
          cfg.escalation.escalate_after * 3600000 < now - r.created_at) →
        escalateOne cfg now r = r)
    ∧ (∀ times : List Nat, ∀ k' r',
        lookupKey
            (times.foldl (fun σ t => (escalatePendingApprovals cfg t σ).1) st).approvalStore k'
          = some r' →
        getApprovalLevelPriority r'.approval_level
          ≤ getApprovalLevelPriority ApprovalLevel.level_3) := by
  refine ⟨?_, ?_, ?_, ?_, ?_⟩
  · rw [show (escalatePendingApprovals cfg now st).1.approvalStore
        = st.approvalStore.map (fun kv => (kv.1, escalateOne cfg now kv.2)) from rfl]
    rw [lookupKey_map_snd, hr]
    rfl
  · unfold escalateOne
    by_cases hc : r.status = RequestStatus.pending ∧
        cfg.escalation.escalate_after * 3600000 < now - r.created_at
    · rw [if_pos hc]
      cases getNextApprovalLevel r.approval_level <;> rfl
    · rw [if_neg hc]
  · intro hp hold
    have hc : r.status = RequestStatus.pending ∧
        cfg.escalation.escalate_after * 3600000 < now - r.created_at := ⟨hp, hold⟩
    unfold escalateOne
    rw [if_pos hc]
    rcases hl : r.approval_level with _ | _ | _
    · refine ⟨?_, fun _ => rfl, fun h => absurd h (by decide)⟩
      show getApprovalLevelPriority ApprovalLevel.level_2
          = min (getApprovalLevelPriority ApprovalLevel.level_1 + 1) 3
      decide
    · refine ⟨?_, fun _ => rfl, fun h => absurd h (by decide)⟩
      show getApprovalLevelPriority ApprovalLevel.level_3
          = min (getApprovalLevelPriority ApprovalLevel.level_2 + 1) 3
      decide
    · refine ⟨?_, fun h => absurd rfl h, fun _ => rfl⟩
      show getApprovalLevelPriority r.approval_level
          = min (getApprovalLevelPriority ApprovalLevel.level_3 + 1) 3
      rw [hl]
      decide
  · intro hn
    unfold escalateOne
    rw [if_neg hn]
  · intro times k' r' _
    cases r'.approval_level <;> decide

theorem C7_witness :
    lookupKey
        (escalatePendingApprovals getDefaultApprovalConfig 20000000 stA).1.approvalStore "a1"
        = some (escalateOne getDefaultApprovalConfig 20000000 reqA)
    ∧ (escalateOne getDefaultApprovalConfig 20000000 reqA).expires_at = reqA.expires_at
    ∧ (reqA.status = RequestStatus.pending →
        getDefaultApprovalConfig.escalation.escalate_after * 3600000
            < 20000000 - reqA.created_at →
          getApprovalLevelPriority
              (escalateOne getDefaultApprovalConfig 20000000 reqA).approval_level
              = min (getApprovalLevelPriority reqA.approval_level + 1) 3
          ∧ (reqA.approval_level ≠ ApprovalLevel.level_3 →
              (escalateOne getDefaultApprovalConfig 20000000 reqA).approvers
                = getApproversForLevel getDefaultApprovalConfig
                    (escalateOne getDefaultApprovalConfig 20000000 reqA).approval_level)
          ∧ (reqA.approval_level = ApprovalLevel.level_3 →
              escalateOne getDefaultApprovalConfig 20000000 reqA = reqA))
    ∧ (¬ (reqA.status = RequestStatus.pending ∧
          getDefaultApprovalConfig.escalation.escalate_after * 3600000
            < 20000000 - reqA.created_at) →
        escalateOne getDefaultApprovalConfig 20000000 reqA = reqA)
    ∧ (∀ times : List Nat, ∀ k' r',
        lookupKey
            (times.foldl
              (fun σ t => (escalatePendingApprovals getDefaultApprovalConfig t σ).1)
              stA).approvalStore k'
          = some r' →
        getApprovalLevelPriority r'.approval_level
          ≤ getApprovalLevelPriority ApprovalLevel.level_3) :=
  C7_prop getDefaultApprovalConfig 20000000 stA "a1" reqA rfl

/-- C5: two sequential `createVersion` calls on the same playbook and branch
yield strictly increasing patch components (the first call on an empty
branch yielding `"1.0.0"`), and the second version's `parent_version` is the
first version's `version_id`.  The branch head, when present, is required to
carry a parseable patch component — true of every number the engine itself
produces. -/
theorem C5_prop (hash : String → String) (id1 id2 : String) (t1 t2 : Nat)
    (playbook : JValue) (d1 d2 a1 a2 b : String) (s : VCState)
    (v1 : Version) (s1 : VCState) (e1 : List VCEvent)
    (v2 : Version) (s2 : VCState) (e2 : List VCEvent)
    (h1 : createVersion hash id1 t1 playbook d1 a1 b s = .ok (v1, s1, e1))
    (h2 : createVersion hash id2 t2 playbook d2 a2 b s1 = .ok (v2, s2, e2))
    (hhead : ∀ vid cur,
        lookupKey s.branches
            (jsDisplayOpt (getField playbook "playbook_id") ++ ":" ++ b) = some vid →
        lookupKey s.versions vid = some cur →
        (patchOf cur.version_number).isSome = true) :
    (∃ p1 p2, patchOf v1.version_number = some p1
      ∧ patchOf v2.version_number = some p2 ∧ p1 < p2)
    ∧ (lookupKey s.branches
          (jsDisplayOpt (getField playbook "playbook_id") ++ ":" ++ b) = none →
        v1.version_number = "1.0.0")
    ∧ v2.parent_version = some v1.version_id := by
  unfold createVersion at h1 h2
  cases hmd : buildMetadata playbook with
  | error e =>
      rw [hmd] at h1
      exact absurd h1 (by simp)
  | ok md =>
      rw [hmd] at h1 h2
      simp only [Except.ok.injEq, Prod.mk.injEq] at h1 h2
      obtain ⟨hv1, hs1, -⟩ := h1
      obtain ⟨hv2, hs2, -⟩ := h2
      subst hs1
      subst hv1
      subst hv2
      have hnum2 : ∀ (v : Version) (au : List AuditEntry) (p1 : Nat),
          patchOf v.version_number = some p1 →
          patchOf (getNextVersionNumber
            { versions := mapSet s.versions id1 v
              branches := mapSet s.branches
                (jsDisplayOpt (getField playbook "playbook_id") ++ ":" ++ b) id1
              auditTrail := au }
            (jsDisplayOpt (getField playbook "playbook_id") ++ ":" ++ b)) = some (p1 + 1) := by
        intro v au p1 hp1
        unfold getNextVersionNumber
        simp only [lookupKey_mapSet_self]
        exact patchOf_incPatch _ p1 hp1
      refine ⟨?_, ?_, ?_⟩
      · -- patch components strictly increase
        rcases hbr : lookupKey s.branches
            (jsDisplayOpt (getField playbook "playbook_id") ++ ":" ++ b) with _ | vid
        · have hn1 : patchOf (getNextVersionNumber s
              (jsDisplayOpt (getField playbook "playbook_id") ++ ":" ++ b)) = some 0 := by
            unfold getNextVersionNumber
            rw [hbr]
            show patchOf "1.0.0" = some 0
            decide
          exact ⟨0, 1, hn1, hnum2 _ _ 0 hn1, by omega⟩
        · rcases hvv : lookupKey s.versions vid with _ | cur
          · have hn1 : patchOf (getNextVersionNumber s
                (jsDisplayOpt (getField playbook "playbook_id") ++ ":" ++ b)) = some 0 := by
              unfold getNextVersionNumber
              rw [hbr]
              simp only [hvv]
              show patchOf "1.0.0" = some 0
              decide
            exact ⟨0, 1, hn1, hnum2 _ _ 0 hn1, by omega⟩
          · obtain ⟨n, hn⟩ := Option.isSome_iff_exists.mp (hhead vid cur hbr hvv)
            have hn1 : patchOf (getNextVersionNumber s
                (jsDisplayOpt (getField playbook "playbook_id") ++ ":" ++ b))
                = some (n + 1) := by
              unfold getNextVersionNumber
              rw [hbr]
              simp only [hvv]
              exact patchOf_incPatch _ n hn
            exact ⟨n + 1, n + 2, hn1, hnum2 _ _ (n + 1) hn1, by omega⟩
      · intro hnone
        show getNextVersionNumber s
          (jsDisplayOpt (getField playbook "playbook_id") ++ ":" ++ b) = "1.0.0"
        unfold getNextVersionNumber
        rw [hnone]
      · exact lookupKey_mapSet_self _ _ _

theorem C5_witness :
    (∃ p1 p2, patchOf vr1.version_number = some p1
      ∧ patchOf vr2.version_number = some p2 ∧ p1 < p2)
    ∧ (lookupKey initialVCState.branches
          (jsDisplayOpt (getField pbFull "playbook_id") ++ ":" ++ "main") = none →
        vr1.version_number = "1.0.0")
    ∧ vr2.parent_version = some vr1.version_id :=
  C5_prop idHash "v1" "v2" 1 2 pbFull "" "" "a" "a" "main" initialVCState
    vr1 st1 run1.2.2 vr2 st2 run2.2.2 rfl rfl
    (fun vid cur h _ => absurd h (by simp [initialVCState, lookupKey]))

/-- C2: for every state reachable through `createVersion`, `createBranch`,
`mergeBranch` and `rollbackToVersion`, every stored version's `checksum`
equals the hash of the canonical (key-sorted, replacer-filtered)
serialization of its `playbook_snapshot` — `createVersion` establishes the
equation and the three copying operations carry both fields over together. -/
theorem C2_prop (hash : String → String) (s : VCState) (h : ReachableVC hash s) :
    ChecksumInv hash s := by
  induction h with
  | init =>
      intro k v hkv
      simp [initialVCState, lookupKey] at hkv
  | @step_createVersion s v s' evs newId now playbook d a b hre hstep ih =>
      unfold createVersion at hstep
      cases hmd : buildMetadata playbook with
      | error e =>
          rw [hmd] at hstep
          exact absurd hstep (by simp)
      | ok md =>
          rw [hmd] at hstep
          simp only [Except.ok.injEq, Prod.mk.injEq] at hstep
          obtain ⟨hv, hs', -⟩ := hstep
          subst hs'
          intro k w hkw
          by_cases hk : newId = k
          · subst hk
            rw [lookupKey_mapSet_self] at hkw
            obtain rfl : _ = w := Option.some.inj hkw
            rfl
          · rw [lookupKey_mapSet_ne _ _ _ _ hk] at hkw
            exact ih k w hkw
  | @step_createBranch s v s' newId now pid bn fv a hre hstep ih =>
      unfold createBranch at hstep
      cases hfv : lookupKey s.versions fv with
      | none =>
          rw [hfv] at hstep
          exact absurd hstep (by simp)
      | some fromVersion =>
          simp only [hfv] at hstep
          split at hstep
          · exact absurd hstep (by simp)
          · split at hstep
            · exact absurd hstep (by simp)
            · simp only [Except.ok.injEq, Prod.mk.injEq] at hstep
              obtain ⟨hv, hs'⟩ := hstep
              subst hs'
              intro k w hkw
              by_cases hk : newId = k
              · subst hk
                rw [lookupKey_mapSet_self] at hkw
                obtain rfl : _ = w := Option.some.inj hkw
                exact ih fv fromVersion hfv
              · rw [lookupKey_mapSet_ne _ _ _ _ hk] at hkw
                exact ih k w hkw
  | @step_mergeBranch s v s' newId now pid sb tb a hre hstep ih =>
      unfold mergeBranch at hstep
      cases hsv : lookupKey s.branches (pid ++ ":" ++ sb) with
      | none =>
          rw [hsv] at hstep
          exact absurd hstep (by simp)
      | some svid =>
          simp only [hsv] at hstep
          cases hvv : lookupKey s.versions svid with
          | none =>
              rw [hvv] at hstep
              exact absurd hstep (by simp)
          | some sourceVersion =>
              simp only [hvv] at hstep
              simp only [Except.ok.injEq, Prod.mk.injEq] at hstep
              obtain ⟨hv, hs'⟩ := hstep
              subst hs'
              intro k w hkw
              by_cases hk : newId = k
              · subst hk
                rw [lookupKey_mapSet_self] at hkw
                obtain rfl : _ = w := Option.some.inj hkw
                exact ih svid sourceVersion hvv
              · rw [lookupKey_mapSet_ne _ _ _ _ hk] at hkw
                exact ih k w hkw
  | @step_rollback s v s' newId now pid vid a r hre hstep ih =>
      unfold rollbackToVersion at hstep
      cases htv : lookupKey s.versions vid with
      | none =>
          rw [htv] at hstep
          exact absurd hstep (by simp)
      | some targetVersion =>
          simp only [htv] at hstep
          split at hstep
          · exact absurd hstep (by simp)
          · simp only [Except.ok.injEq, Prod.mk.injEq] at hstep
            obtain ⟨hv, hs'⟩ := hstep
            subst hs'
            intro k w hkw
            by_cases hk : newId = k
            · subst hk
              rw [lookupKey_mapSet_self] at hkw
              obtain rfl : _ = w := Option.some.inj hkw
              exact ih vid targetVersion htv
            · rw [lookupKey_mapSet_ne _ _ _ _ hk] at hkw
              exact ih k w hkw

theorem C2_witness : ChecksumInv idHash st1 :=
  C2_prop idHash st1
    (ReachableVC.step_createVersion "v1" 1 pbFull "" "a" "main" ReachableVC.init rfl)

end Soar
